import Mathlib

/-!
Shallow embedding of the hpbviz mask-to-surface and volumetrics core
(`src/hpbviz/mesh.py`, `src/hpbviz/metrics.py`, `src/hpbviz/app.py`).

Images are SimpleITK images: a 3D voxel grid with `size = (nx, ny, nz)`
(as returned by `GetSize`), spacing/origin in physical millimetres and a
row-major 3x3 direction matrix stored as a flat 9-element list (as
returned by `GetDirection`).  Voxel data is indexed `(z, y, x)` exactly
like `sitk.GetArrayFromImage`.  Real-valued quantities are modelled as
rationals so that the arithmetic of the source is exact.

External library calls (SimpleITK resampling and orientation, the VTK
discrete-marching-cubes backend, file reads) are not part of the
repository; they are modelled from their documented contracts, each one
marked in its doc comment.  Everything else is translated line by line
from the Python source.
-/

namespace HpbViz

/-- RGBA color, as the 4-tuples of floats used throughout `app.py`. -/
abbrev RGBA := ℚ × ℚ × ℚ × ℚ

/-- A 3D point / vector in physical space (x, y, z). -/
abbrev Vec3 := ℚ × ℚ × ℚ

/-- A 3D array in `(z, y, x)` axis order, as `sitk.GetArrayFromImage`
returns and as `MeshBuilder.mask_to_surface` expects.  Values are the
nonnegative integer voxel labels (masks are cast to `uint8`). -/
structure Arr3 where
  nz : ℕ
  ny : ℕ
  nx : ℕ
  val : ℕ → ℕ → ℕ → ℕ

/-- A SimpleITK image: voxel grid plus physical geometry.
`size` is `(nx, ny, nz)` as `GetSize` returns; `direction` is the flat
row-major 3x3 matrix as `GetDirection` returns. -/
structure Image where
  size : ℕ × ℕ × ℕ
  spacing : Vec3
  origin : Vec3
  direction : List ℚ
  data : ℕ → ℕ → ℕ → ℕ

/-- The identity direction matrix, flat row-major. -/
def idDirection : List ℚ := [1, 0, 0, 0, 1, 0, 0, 0, 1]

/-- Entry `(i, j)` of a flat row-major 3x3 matrix. -/
def dirGet (d : List ℚ) (i j : ℕ) : ℚ := d.getD (3 * i + j) 0

/-- Multiply a flat 3x3 matrix by a column vector. -/
def matApply (d : List ℚ) (v : Vec3) : Vec3 :=
  (dirGet d 0 0 * v.1 + dirGet d 0 1 * v.2.1 + dirGet d 0 2 * v.2.2,
   dirGet d 1 0 * v.1 + dirGet d 1 1 * v.2.1 + dirGet d 1 2 * v.2.2,
   dirGet d 2 0 * v.1 + dirGet d 2 1 * v.2.1 + dirGet d 2 2 * v.2.2)

/-- Multiply the transpose of a flat 3x3 matrix by a column vector.
For an orthonormal direction matrix the transpose is the inverse, which
is how physical points are mapped back to continuous voxel indices. -/
def matTApply (d : List ℚ) (v : Vec3) : Vec3 :=
  (dirGet d 0 0 * v.1 + dirGet d 1 0 * v.2.1 + dirGet d 2 0 * v.2.2,
   dirGet d 0 1 * v.1 + dirGet d 1 1 * v.2.1 + dirGet d 2 1 * v.2.2,
   dirGet d 0 2 * v.1 + dirGet d 1 2 * v.2.1 + dirGet d 2 2 * v.2.2)

/-- Physical point of voxel index `(ix, iy, iz)`:
`origin + direction * (ix*sx, iy*sy, iz*sz)` (ITK index-to-point map). -/
def physPoint (img : Image) (ix iy iz : ℕ) : Vec3 :=
  let s := matApply img.direction
    ((ix : ℚ) * img.spacing.1, (iy : ℚ) * img.spacing.2.1, (iz : ℚ) * img.spacing.2.2)
  (img.origin.1 + s.1, img.origin.2.1 + s.2.1, img.origin.2.2 + s.2.2)

/-- Continuous voxel index of a physical point in `img`
(inverse of `physPoint`, using the transpose of the orthonormal
direction matrix). -/
def contIndex (img : Image) (p : Vec3) : Vec3 :=
  let w := matTApply img.direction
    (p.1 - img.origin.1, p.2.1 - img.origin.2.1, p.2.2 - img.origin.2.2)
  (w.1 / img.spacing.1, w.2.1 / img.spacing.2.1, w.2.2 / img.spacing.2.2)

/-- Round-half-up to the nearest integer, as ITK's nearest-neighbour
interpolator rounds continuous indices. -/
def roundHalfUp (q : ℚ) : ℤ := ⌊q + 1 / 2⌋

/-- Modelled from the spec: `sitk.Resample(mask, reference, Transform(),
sitkNearestNeighbor, 0, mask.GetPixelID())` is an external SimpleITK
call.  Its documented contract: the output lies on `reference`'s voxel
grid (size, spacing, origin, direction all taken from `reference`); each
output voxel is filled by nearest-neighbour lookup of `mask` at the
corresponding physical point, with default value 0 outside `mask`. -/
def sitkResample (mask reference : Image) : Image :=
  { size := reference.size
    spacing := reference.spacing
    origin := reference.origin
    direction := reference.direction
    data := fun z y x =>
      let p := physPoint reference x y z
      let q := contIndex mask p
      let ix := roundHalfUp q.1
      let iy := roundHalfUp q.2.1
      let iz := roundHalfUp q.2.2
      if 0 ≤ ix ∧ ix < (mask.size.1 : ℤ) ∧ 0 ≤ iy ∧ iy < (mask.size.2.1 : ℤ)
          ∧ 0 ≤ iz ∧ iz < (mask.size.2.2 : ℤ) then
        mask.data iz.toNat iy.toNat ix.toNat
      else 0 }

/-- `app._resample_mask_to_image`: if mask and reference share size,
spacing, origin and direction, return the mask unchanged; otherwise
resample with nearest neighbour and copy the reference's geometry onto
the result (`CopyInformation`). -/
def resampleMaskToImage (mask reference : Image) : Image :=
  if mask.size = reference.size ∧ mask.spacing = reference.spacing
      ∧ mask.origin = reference.origin ∧ mask.direction = reference.direction then
    mask
  else
    let resampled := sitkResample mask reference
    { resampled with
      spacing := reference.spacing
      origin := reference.origin
      direction := reference.direction }

/-- Modelled from the spec: `sitk.DICOMOrient(image, "LPS")` is an
external SimpleITK call that reorients the voxel grid to the
left-posterior-superior convention, whose canonical direction matrix is
the identity.  For an already axis-aligned image this permutes/flips
axes so the resulting direction is the identity; the axis permutation of
the voxel data is abstracted (no claim inspects reordered voxels), so
the model keeps the data and forces the identity direction. -/
def sitkDICOMOrientLPS (img : Image) : Image :=
  { img with direction := idDirection }

/-- `app._canonicalize_image`: orient to LPS then set the origin to
`(0, 0, 0)`. -/
def canonicalizeImage (img : Image) : Image :=
  let oriented := sitkDICOMOrientLPS img
  { oriented with origin := ((0 : ℚ), (0 : ℚ), (0 : ℚ)) }

/-- Pipeline error values.  `missingLiverMask` is the
`RuntimeError("Liver mask is required. ...")` raised by `run_pipeline`;
`ioError` stands for any exception escaping an external file read. -/
inductive PipeError where
  | missingLiverMask
  | ioError (msg : String)
deriving DecidableEq, Repr

/-- `app._read_mask_like`: read the mask file and cast to uint8 (the
external read, passed in as `readImage`), resample onto the reference
grid, canonicalize once. -/
def readMaskLike (readImage : String → Except PipeError Image)
    (ref : Image) (path : String) : Except PipeError Image :=
  match readImage path with
  | .error e => .error e
  | .ok m => .ok (canonicalizeImage (resampleMaskToImage m ref))

/-! ### Surface extraction (`mesh.py`) -/

/-- The distinct `ValueError`s raised by `MeshBuilder.mask_to_surface`:
empty selection ("Mask is empty; nothing to mesh."), marching cubes
returned no points, marching cubes returned no faces. -/
inductive MeshError where
  | emptyMask
  | emptyMesh
  | noFaces
deriving DecidableEq, Repr

/-- A raw extracted mesh: `{'vertices': (N,3), 'faces': (M,3)}`. -/
structure Mesh where
  vertices : List Vec3
  faces : List (ℕ × ℕ × ℕ)
deriving DecidableEq, Repr

/-- The marching-cubes backend (`vtk.vtkDiscreteMarchingCubes` at
iso-value 1): external VTK code, modelled as an arbitrary function from
the binarized voxel array plus spacing and origin to point and
triangle-cell lists.  Theorems quantify over it. -/
abbrev McBackend := Arr3 → Vec3 → Vec3 → List Vec3 × List (ℕ × ℕ × ℕ)

/-- All `(z, y, x)` coordinates of an array's grid. -/
def coords (a : Arr3) : List (ℕ × ℕ × ℕ) :=
  (List.range a.nz).flatMap fun z =>
    (List.range a.ny).flatMap fun y =>
      (List.range a.nx).map fun x => (z, y, x)

/-- The boolean selection array built by `mask_to_surface`
(`mask == label` when a label is given, else `mask > 0`), cast to
uint8 0/1 values. -/
def selectionOf (m : Arr3) (label : Option ℕ) : Arr3 :=
  { m with val := fun z y x =>
      match label with
      | some l => if m.val z y x = l then 1 else 0
      | none => if 0 < m.val z y x then 1 else 0 }

/-- `np.any` over a 3D array: some in-range voxel is nonzero. -/
def anyVoxel (a : Arr3) : Bool :=
  (coords a).any fun c => a.val c.1 c.2.1 c.2.2 ≠ 0

/-- `MeshBuilder.mask_to_surface` with an explicit `label` argument
(`none` models Python `label=None`).  Builds the boolean selection,
fails on an empty selection, hands the binarized array with spacing and
origin to the marching-cubes backend, and fails if the backend yields no
points or no polygon cells. -/
def maskToSurface (mc : McBackend) (mask : Arr3) (spacing origin : Vec3)
    (label : Option ℕ) : Except MeshError Mesh :=
  let maskBool := selectionOf mask label
  if anyVoxel maskBool then
    let out := mc maskBool spacing origin
    if out.1.length = 0 then .error .emptyMesh
    else if out.2.length = 0 then .error .noFaces
    else .ok { vertices := out.1, faces := out.2 }
  else .error .emptyMask

/-- `MeshBuilder.mask_to_surface` called without a `label` argument:
the Python signature declares `label: int = 1`, so the omitted-label
call extracts label 1. -/
def maskToSurfaceDefault (mc : McBackend) (mask : Arr3) (spacing origin : Vec3) :
    Except MeshError Mesh :=
  maskToSurface mc mask spacing origin (some 1)

/-! ### Surface building (`app.py`) -/

/-- A viewer surface dict: mesh plus color and display name. -/
structure Surface where
  vertices : List Vec3
  faces : List (ℕ × ℕ × ℕ)
  color : RGBA
  display_name : String
deriving DecidableEq, Repr

/-- View an image's voxel data as the `(z, y, x)` array returned by
`sitk.GetArrayFromImage` (shape `(nz, ny, nx)` from size `(nx, ny, nz)`). -/
def imageToArr (img : Image) : Arr3 :=
  { nz := img.size.2.2, ny := img.size.2.1, nx := img.size.1, val := img.data }

/-- `app._build_surface`: binarize by the requested label (or `> 0`),
return `none` on an empty selection, mesh the binarized array with
`label=None`, catch any `ValueError` from the extractor as `none`, drop
empty geometry, then attach color and display name. -/
def buildSurface (mc : McBackend) (maskImg : Image) (name : String)
    (color : RGBA) (label : Option ℕ) : Option Surface :=
  let arr := imageToArr maskImg
  let maskArr := selectionOf arr label
  if anyVoxel maskArr then
    match maskToSurface mc maskArr maskImg.spacing maskImg.origin none with
    | .error _ => none
    | .ok mesh =>
      if mesh.vertices.length = 0 ∨ mesh.faces.length = 0 then none
      else some { vertices := mesh.vertices, faces := mesh.faces,
                  color := color, display_name := name }
  else none

/-- Python dict assignment `surfaces[name] = s` on an insertion-ordered
dict: replace in place if the key exists, else append. -/
def upsert (l : List (String × Surface)) (k : String) (v : Surface) :
    List (String × Surface) :=
  if l.any fun kv => kv.1 = k then
    l.map fun kv => if kv.1 = k then (k, v) else kv
  else l ++ [(k, v)]

/-- Python `name.replace("_", " ").title()` as used for display names. -/
def pyTitle (name : String) : String :=
  String.intercalate " " (((name.replace "_" " ").splitOn " ").map String.capitalize)

/-- `app._add_labeled_surfaces`: if no mask path was given do nothing;
otherwise read the mask like the reference, then for each `(label,
(name, color))` entry of the label map attempt `_build_surface`, and on
success (optionally retitling the display name) insert the surface under
`name`.  Failed or empty labels are skipped. -/
def addLabeledSurfaces (mc : McBackend)
    (readImage : String → Except PipeError Image) (refImg : Image)
    (maskPath : Option String) (labelMap : List (ℕ × String × RGBA))
    (surfaces : List (String × Surface)) (setDisplayName : Bool) :
    Except PipeError (List (String × Surface)) :=
  match maskPath with
  | none => .ok surfaces
  | some p =>
    match readMaskLike readImage refImg p with
    | .error e => .error e
    | .ok mImg =>
      .ok (labelMap.foldl
        (fun acc entry =>
          match buildSurface mc mImg entry.2.1 entry.2.2 (some entry.1) with
          | some s =>
            let s := if setDisplayName then { s with display_name := pyTitle entry.2.1 } else s
            upsert acc entry.2.1 s
          | none => acc)
        surfaces)

/-- `TASK08_LABELS` from `app.py`. -/
def TASK08_LABELS : List (ℕ × String × RGBA) :=
  [(1, "hepatic_vessels_OLD", (0, 0, 1, 1)),
   (2, "liver_tumors", (0, 1, 0, 1))]

/-- `VSNET_LABELS` from `app.py`. -/
def VSNET_LABELS : List (ℕ × String × RGBA) :=
  [(1, "hepatic_vein", (1/4, 2/5, 19/20, 17/20)),
   (2, "portal_vein", (1/10, 3/4, 17/20, 4/5))]

/-! ### Connected-component volumetrics (`metrics.py`) -/

/-- `metrics.ComponentVolume`. -/
structure ComponentVolume where
  label_id : ℕ
  voxel_count : ℕ
  volume_mm3 : ℚ
  volume_ml : ℚ
deriving DecidableEq, Repr

/-- `|a - b|` on naturals. -/
def natDist (a b : ℕ) : ℕ := max (a - b) (b - a)

/-- 6-neighbour (face) adjacency: Manhattan distance exactly 1. -/
def adjacentFace (p q : ℕ × ℕ × ℕ) : Bool :=
  natDist p.1 q.1 + natDist p.2.1 q.2.1 + natDist p.2.2 q.2.2 = 1

/-- 26-neighbour (fully connected) adjacency: Chebyshev distance
exactly 1. -/
def adjacentFull (p q : ℕ × ℕ × ℕ) : Bool :=
  natDist p.1 q.1 ≤ 1 ∧ natDist p.2.1 q.2.1 ≤ 1 ∧ natDist p.2.2 q.2.2 ≤ 1
    ∧ 1 ≤ natDist p.1 q.1 + natDist p.2.1 q.2.1 + natDist p.2.2 q.2.2

/-- Modelled from the spec: genuine 18-neighbour (face-plus-edge)
adjacency, which the spec ascribes to `connectivity=18`.  This is the
comparison definition only; the source never computes it. -/
def adjacent18Spec (p q : ℕ × ℕ × ℕ) : Bool :=
  let s := natDist p.1 q.1 + natDist p.2.1 q.2.1 + natDist p.2.2 q.2.2
  natDist p.1 q.1 ≤ 1 ∧ natDist p.2.1 q.2.1 ≤ 1 ∧ natDist p.2.2 q.2.2 ≤ 1
    ∧ 1 ≤ s ∧ s ≤ 2

/-- One step of incremental connected-component labeling: merge the
new point with every existing component it touches. -/
def ccStep (adj : (ℕ × ℕ × ℕ) → (ℕ × ℕ × ℕ) → Bool)
    (comps : List (List (ℕ × ℕ × ℕ))) (p : ℕ × ℕ × ℕ) :
    List (List (ℕ × ℕ × ℕ)) :=
  let near := comps.filter fun c => c.any (adj p)
  let far := comps.filter fun c => !(c.any (adj p))
  (p :: near.flatten) :: far

/-- Modelled from the spec: `sitk.ConnectedComponent(binary,
fully_connected)` is an external SimpleITK call; its contract is
connected-component labeling of the foreground under face adjacency
(`fully_connected=False`) or fully-connected 26-adjacency
(`fully_connected=True`).  Modelled as incremental merge over the
foreground voxel list. -/
def ccLabel (adj : (ℕ × ℕ × ℕ) → (ℕ × ℕ × ℕ) → Bool)
    (pts : List (ℕ × ℕ × ℕ)) : List (List (ℕ × ℕ × ℕ)) :=
  pts.foldl (ccStep adj) []

/-- The foreground voxel list of `_as_binary_mask(mask, label_value)`:
all in-range `(z, y, x)` whose binarized value is nonzero. -/
def foregroundList (mask : Image) (labelValue : Option ℕ) : List (ℕ × ℕ × ℕ) :=
  let b := selectionOf (imageToArr mask) labelValue
  (coords b).filter fun c => b.val c.1 c.2.1 c.2.2 ≠ 0

/-- `metrics.component_volumes`: binarize, return `[]` when nothing is
foreground, label connected components with
`fully_connected = (connectivity == 26)`, then report voxel count and
physical volume (`voxels * sx*sy*sz` mm^3, `mm3 / 1000` mL) per
component. -/
def componentVolumes (mask : Image) (labelValue : Option ℕ)
    (connectivity : ℕ) : List ComponentVolume :=
  let fg := foregroundList mask labelValue
  if fg.isEmpty then []
  else
    let fullyConnected := connectivity = 26
    let adj := if fullyConnected then adjacentFull else adjacentFace
    let comps := ccLabel adj fg
    let voxelVolume := mask.spacing.1 * mask.spacing.2.1 * mask.spacing.2.2
    (comps.zip (List.range comps.length)).map fun ci =>
      let voxels : ℕ := ci.1.length
      let mm3 := (voxels : ℚ) * voxelVolume
      { label_id := ci.2 + 1, voxel_count := voxels,
        volume_mm3 := mm3, volume_ml := mm3 / 1000 }

/-- `metrics.tumor_volume_summary`: the component list plus aggregate
totals (sum of the per-component mm^3, and that sum over 1000 in mL). -/
def tumorVolumeSummary (mask : Image) (labelValue : Option ℕ)
    (connectivity : ℕ) : List ComponentVolume × ℚ × ℚ :=
  let components := componentVolumes mask labelValue connectivity
  let totalMm3 := (components.map fun comp => comp.volume_mm3).sum
  (components, totalMm3, totalMm3 / 1000)

/-! ### The orchestrator (`app.run_pipeline`) -/

/-- `run_pipeline`'s tumor-metrics dict. -/
structure TumorMetrics where
  components : List ComponentVolume
  total_mm3 : ℚ
  total_ml : ℚ
deriving DecidableEq, Repr

/-- `run_pipeline`'s return tuple `(img, surfaces, mask_img,
tumor_metrics)`. -/
structure PipelineResult where
  img : Image
  surfaces : List (String × Surface)
  mask_img : Image
  tumor_metrics : Option TumorMetrics

/-- `app.run_pipeline` on an already-loaded reference volume.  File
reads are external IO: `readImage n` is the outcome of the pipeline's
`n`-th mask read (0: liver mask, 1: the Task08 mask read by
`_add_labeled_surfaces`, 2: the Task08 mask re-read inside the
volumetrics `try` block, 3: the manual mask); distinct reads of one path
may differ, as file IO may.  Mirrors the source line by line: fail when
no liver mask path is given, read and reconcile the liver mask, build
the liver surface best-effort, add Task08 surfaces, compute tumor
volumetrics on label 2 with 26-connectivity inside a catch-all, add
manual-mask surfaces, and return.  The `save_mask` and `export` steps
are external writes that do not affect the returned value. -/
def runPipeline (mc : McBackend)
    (readImage : ℕ → String → Except PipeError Image) (loaded : Image)
    (liverMaskPath task008MaskPath manualMaskPath : Option String) :
    Except PipeError PipelineResult :=
  let img := canonicalizeImage loaded
  match liverMaskPath with
  | none => .error .missingLiverMask
  | some lp =>
    match readMaskLike (readImage 0) img lp with
    | .error e => .error e
    | .ok maskImg =>
      let surfaces1 : List (String × Surface) :=
        match buildSurface mc maskImg "liver" (1, 0, 0, 1) none with
        | some s => upsert [] "liver" s
        | none => []
      match addLabeledSurfaces mc (readImage 1) img task008MaskPath
          TASK08_LABELS surfaces1 true with
      | .error e => .error e
      | .ok surfaces2 =>
        let tumorMetrics : Option TumorMetrics :=
          match task008MaskPath with
          | none => none
          | some tp =>
            match readMaskLike (readImage 2) img tp with
            | .error _ => none
            | .ok taskMaskImg =>
              let summary := tumorVolumeSummary taskMaskImg (some 2) 26
              some { components := summary.1, total_mm3 := summary.2.1,
                     total_ml := summary.2.2 }
        match addLabeledSurfaces mc (readImage 3) img manualMaskPath
            VSNET_LABELS surfaces2 true with
        | .error e => .error e
        | .ok surfaces3 =>
          .ok { img := img, surfaces := surfaces3, mask_img := maskImg,
                tumor_metrics := tumorMetrics }

/-- A canonicalized volume: identity direction and zero origin. -/
def Canonical (img : Image) : Prop :=
  img.direction = idDirection ∧ img.origin = ((0 : ℚ), (0 : ℚ), (0 : ℚ))

/-! ### Concrete fixtures for witnesses and counterexamples -/

/-- A unit-spacing canonical image whose two foreground voxels touch
only at a corner. -/
def cornerImg : Image :=
  { size := (2, 2, 2), spacing := (1, 1, 1), origin := (0, 0, 0),
    direction := idDirection,
    data := fun z y x =>
      if (z = 0 ∧ y = 0 ∧ x = 0) ∨ (z = 1 ∧ y = 1 ∧ x = 1) then 1 else 0 }

/-- A unit-spacing canonical image whose two foreground voxels differ
by 1 in exactly two coordinates: they share an edge (18-adjacent) but
no face (not 6-adjacent). -/
def edgeImg : Image :=
  { size := (2, 2, 1), spacing := (1, 1, 1), origin := (0, 0, 0),
    direction := idDirection,
    data := fun z y x =>
      if (z = 0 ∧ y = 0 ∧ x = 0) ∨ (z = 0 ∧ y = 1 ∧ x = 1) then 1 else 0 }

/-- Single-voxel array holding the label 2. -/
def twoArr : Arr3 := ⟨1, 1, 1, fun _ _ _ => 2⟩

/-- Single-voxel array holding 0 (all background). -/
def zeroArr : Arr3 := ⟨1, 1, 1, fun _ _ _ => 0⟩

/-- Single-voxel array holding the label 1. -/
def oneArr : Arr3 := ⟨1, 1, 1, fun _ _ _ => 1⟩

/-- A backend that always produces one point and one triangle cell. -/
def mcConst : McBackend := fun _ _ _ => ([(0, 0, 0)], [(0, 1, 2)])

/-- A degenerate backend producing no points and no cells. -/
def mcNil : McBackend := fun _ _ _ => ([], [])

/-- A 1-voxel canonical image with value 1. -/
def imgUnit : Image :=
  { size := (1, 1, 1), spacing := (1, 1, 1), origin := (0, 0, 0),
    direction := idDirection, data := fun _ _ _ => 1 }

/-- A 1-voxel canonical image whose voxel holds label 2 (tumor). -/
def imgTwo : Image :=
  { size := (1, 1, 1), spacing := (1, 1, 1), origin := (0, 0, 0),
    direction := idDirection, data := fun _ _ _ => 2 }

/-- A 1-voxel canonical all-background image. -/
def imgZero : Image :=
  { size := (1, 1, 1), spacing := (1, 1, 1), origin := (0, 0, 0),
    direction := idDirection, data := fun _ _ _ => 0 }

/-- A read function whose every read succeeds with `imgTwo`. -/
def readAllTwo : ℕ → String → Except PipeError Image := fun _ _ => .ok imgTwo

/-- A read function whose every read succeeds with `imgZero`. -/
def readAllZero : ℕ → String → Except PipeError Image := fun _ _ => .ok imgZero

/-- A read function failing exactly on the volumetrics re-read
(read index 2). -/
def readFailVol : ℕ → String → Except PipeError Image :=
  fun n _ => if n = 2 then .error (.ioError "boom") else .ok imgTwo

/-- The tumor-metrics value `run_pipeline` builds from a successfully
re-read task mask: the label-2, 26-connectivity summary. -/
def metricsOf (tm : Image) : TumorMetrics :=
  { components := (tumorVolumeSummary tm (some 2) 26).1,
    total_mm3 := (tumorVolumeSummary tm (some 2) 26).2.1,
    total_ml := (tumorVolumeSummary tm (some 2) 26).2.2 }

/-- The result `run_pipeline` computes on the 1-voxel fixtures with a
liver mask only. -/
def pipeResW : PipelineResult :=
  { img := canonicalizeImage imgUnit,
    surfaces := [("liver",
      { vertices := [(0, 0, 0)], faces := [(0, 1, 2)],
        color := (1, 0, 0, 1), display_name := "liver" })],
    mask_img := canonicalizeImage imgTwo,
    tumor_metrics := none }

/-- The result `run_pipeline` computes on the all-background fixtures
with liver and task masks (no surface meshable, zero tumor burden). -/
def pipeResZ : PipelineResult :=
  { img := canonicalizeImage imgUnit,
    surfaces := [],
    mask_img := canonicalizeImage imgZero,
    tumor_metrics := some (metricsOf (canonicalizeImage imgZero)) }

/-! ## Theorems -/

/-- Helper: the fast path of `_resample_mask_to_image`. -/
theorem resample_same_geometry (m r : Image)
    (h : m.size = r.size ∧ m.spacing = r.spacing ∧ m.origin = r.origin
      ∧ m.direction = r.direction) :
    resampleMaskToImage m r = m := by
  simp only [resampleMaskToImage, if_pos h]

/-- Helper: `_resample_mask_to_image` always returns an image on the
reference grid (either the mask already was, or the geometry is copied
from the reference). -/
theorem resample_result_geometry (m r : Image) :
    (resampleMaskToImage m r).size = r.size
    ∧ (resampleMaskToImage m r).spacing = r.spacing
    ∧ (resampleMaskToImage m r).origin = r.origin
    ∧ (resampleMaskToImage m r).direction = r.direction := by
  by_cases h : m.size = r.size ∧ m.spacing = r.spacing ∧ m.origin = r.origin
      ∧ m.direction = r.direction
  · rw [resample_same_geometry m r h]
    exact h
  · simp only [resampleMaskToImage, if_neg h]
    simp only [sitkResample]
    simp

/-- C4: when mask and reference agree on size, spacing, origin and
direction, `_resample_mask_to_image` returns the mask object unchanged
with bit-identical data, and reconciling the result of a reconciliation
onto the same reference again is the identity on it (reconciliation is
idempotent). -/
theorem resample_fast_path_and_idempotent :
    (∀ m r : Image,
      m.size = r.size ∧ m.spacing = r.spacing ∧ m.origin = r.origin
        ∧ m.direction = r.direction →
      resampleMaskToImage m r = m)
    ∧ ∀ m r : Image,
      resampleMaskToImage (resampleMaskToImage m r) r = resampleMaskToImage m r := by
  refine ⟨resample_same_geometry, fun m r => ?_⟩
  exact resample_same_geometry (resampleMaskToImage m r) r (resample_result_geometry m r)

/-- Witness for C4: the fast path at a concrete pair of images with
equal geometry. -/
theorem resample_fast_path_witness :
    (imgUnit.size = imgUnit.size ∧ imgUnit.spacing = imgUnit.spacing
      ∧ imgUnit.origin = imgUnit.origin ∧ imgUnit.direction = imgUnit.direction)
    ∧ resampleMaskToImage imgUnit imgUnit = imgUnit :=
  ⟨⟨rfl, rfl, rfl, rfl⟩,
    resample_fast_path_and_idempotent.1 imgUnit imgUnit ⟨rfl, rfl, rfl, rfl⟩⟩

/-- C3: `mask_to_surface` fails with the empty-mask error when the
label selection has no foreground voxel; it fails (with the
no-points or no-faces error) when marching cubes yields zero points or
zero polygon cells; and every surface it returns has nonempty vertex and
face lists. -/
theorem maskToSurface_guards :
    (∀ (mc : McBackend) (m : Arr3) (sp o : Vec3) (lab : Option ℕ),
        anyVoxel (selectionOf m lab) = false →
        maskToSurface mc m sp o lab = .error .emptyMask)
    ∧ (∀ (mc : McBackend) (m : Arr3) (sp o : Vec3) (lab : Option ℕ),
        anyVoxel (selectionOf m lab) = true →
        (mc (selectionOf m lab) sp o).1 = [] ∨ (mc (selectionOf m lab) sp o).2 = [] →
        maskToSurface mc m sp o lab = .error .emptyMesh
          ∨ maskToSurface mc m sp o lab = .error .noFaces)
    ∧ ∀ (mc : McBackend) (m : Arr3) (sp o : Vec3) (lab : Option ℕ) (s : Mesh),
        maskToSurface mc m sp o lab = .ok s → s.vertices ≠ [] ∧ s.faces ≠ [] := by
  refine ⟨?_, ?_, ?_⟩
  · intro mc m sp o lab hempty
    simp only [maskToSurface, hempty, Bool.false_eq_true, if_false]
  · intro mc m sp o lab hany hnil
    simp only [maskToSurface, hany, if_true]
    rcases hnil with h1 | h2
    · left
      rw [if_pos (by simp [h1])]
    · by_cases h1 : (mc (selectionOf m lab) sp o).1.length = 0
      · left
        rw [if_pos h1]
      · right
        rw [if_neg h1, if_pos (by simp [h2])]
  · intro mc m sp o lab s hok
    by_cases hany : anyVoxel (selectionOf m lab) = true
    · simp only [maskToSurface, hany, if_true] at hok
      by_cases h1 : (mc (selectionOf m lab) sp o).1.length = 0
      · rw [if_pos h1] at hok
        exact absurd hok (by simp)
      · rw [if_neg h1] at hok
        by_cases h2 : (mc (selectionOf m lab) sp o).2.length = 0
        · rw [if_pos h2] at hok
          exact absurd hok (by simp)
        · rw [if_neg h2] at hok
          have hs := (Except.ok.inj hok).symm
          subst hs
          exact ⟨fun hv => h1 (by simp_all), fun hf => h2 (by simp_all)⟩
    · simp only [Bool.not_eq_true] at hany
      simp only [maskToSurface, hany, Bool.false_eq_true, if_false] at hok
      exact absurd hok (by simp)

/-- Witness for C3: all three guards at concrete inputs. -/
theorem maskToSurface_guards_witness :
    maskToSurface mcConst zeroArr (1, 1, 1) (0, 0, 0) (some 1) = .error .emptyMask
    ∧ (maskToSurface mcNil oneArr (1, 1, 1) (0, 0, 0) (some 1) = .error .emptyMesh
        ∨ maskToSurface mcNil oneArr (1, 1, 1) (0, 0, 0) (some 1) = .error .noFaces)
    ∧ (Mesh.mk [(0, 0, 0)] [(0, 1, 2)]).vertices ≠ []
    ∧ (Mesh.mk [(0, 0, 0)] [(0, 1, 2)]).faces ≠ [] :=
  ⟨maskToSurface_guards.1 mcConst zeroArr (1, 1, 1) (0, 0, 0) (some 1) (by decide),
   maskToSurface_guards.2.1 mcNil oneArr (1, 1, 1) (0, 0, 0) (some 1) (by decide)
     (Or.inl rfl),
   (maskToSurface_guards.2.2 mcConst oneArr (1, 1, 1) (0, 0, 0) (some 1)
     (Mesh.mk [(0, 0, 0)] [(0, 1, 2)]) rfl).1,
   (maskToSurface_guards.2.2 mcConst oneArr (1, 1, 1) (0, 0, 0) (some 1)
     (Mesh.mk [(0, 0, 0)] [(0, 1, 2)]) rfl).2⟩

/-- C5 (amended): the Python signature declares `label: int = 1`, so
the omitted-label call extracts label 1, while the "any voxel > 0"
foreground rule applies only when `label=None` is passed explicitly.
On a mask with no voxel equal to 1 but an in-range nonzero voxel, the
omitted-label call fails with the empty-mask error, whereas the
`label=None` call never reports an empty mask. -/
theorem maskToSurface_default_label_one
    (mc : McBackend) (m : Arr3) (sp o : Vec3)
    (h1 : ∀ c ∈ coords m, m.val c.1 c.2.1 c.2.2 ≠ 1)
    (h2 : ∃ c ∈ coords m, m.val c.1 c.2.1 c.2.2 ≠ 0) :
    maskToSurfaceDefault mc m sp o = .error .emptyMask
    ∧ maskToSurface mc m sp o none ≠ .error .emptyMask := by
  constructor
  · have hempty : anyVoxel (selectionOf m (some 1)) = false := by
      simp only [anyVoxel, List.any_eq_false]
      intro c hc
      have hc' : c ∈ coords m := hc
      have := h1 c hc'
      simp only [selectionOf, if_neg this, decide_not]
      simp
    exact maskToSurface_guards.1 mc m sp o (some 1) hempty
  · obtain ⟨c, hc, hcv⟩ := h2
    have hany : anyVoxel (selectionOf m none) = true := by
      simp only [anyVoxel, List.any_eq_true]
      refine ⟨c, hc, ?_⟩
      have : 0 < m.val c.1 c.2.1 c.2.2 := Nat.pos_of_ne_zero hcv
      simp [selectionOf, this]
    simp only [maskToSurface, hany, if_true]
    by_cases hv : (mc (selectionOf m none) sp o).1.length = 0
    · rw [if_pos hv]
      simp
    · rw [if_neg hv]
      by_cases hf : (mc (selectionOf m none) sp o).2.length = 0
      · rw [if_pos hf]
        simp
      · rw [if_neg hf]
        simp

/-- Witness for C5's amended theorem at a 1-voxel mask holding 2. -/
theorem maskToSurface_default_label_witness :
    maskToSurfaceDefault mcConst twoArr (1, 1, 1) (0, 0, 0) = .error .emptyMask
    ∧ maskToSurface mcConst twoArr (1, 1, 1) (0, 0, 0) none ≠ .error .emptyMask :=
  maskToSurface_default_label_one mcConst twoArr (1, 1, 1) (0, 0, 0)
    (by decide) (by decide)

/-- C5 counterexample: a mask whose only nonzero value is 2, meshed
without a label argument, is reported as empty instead of having its
nonzero voxels selected. -/
theorem maskToSurface_default_label_counterexample :
    maskToSurfaceDefault mcConst twoArr (1, 1, 1) (0, 0, 0) = .error .emptyMask := rfl

/-- C6 (amended): `component_volumes` treats the connectivity argument
only through equality with 26 (`fully_connected = (connectivity ==
26)`): two single-voxel regions touching at a corner are one component
under 26 and two under 6, while `connectivity=18` selects face (6-)
adjacency, behaving identically to `connectivity=6` on every mask. -/
theorem connectivity_26_vs_6 :
    ((componentVolumes cornerImg none 26).length = 1
      ∧ (componentVolumes cornerImg none 6).length = 2)
    ∧ ∀ (mask : Image) (lv : Option ℕ),
        componentVolumes mask lv 18 = componentVolumes mask lv 6 :=
  ⟨by decide, fun _ _ => rfl⟩

/-- C6 counterexample: two voxels differing by 1 in exactly two
coordinates are 18-adjacent (face-plus-edge), so genuine 18-neighbour
labeling yields one component, but `component_volumes` with
`connectivity=18` reports two — the same as 6-adjacency — because the
code only tests `connectivity == 26`. -/
theorem connectivity_18_counterexample :
    (componentVolumes edgeImg none 18).length = 2
    ∧ (ccLabel adjacent18Spec (foregroundList edgeImg none)).length = 1 := by decide

/-- Helper: one labeling step only regroups voxels — its flattening is
a permutation of the new point plus the previous flattening. -/
theorem ccStep_flatten_perm (adj : (ℕ × ℕ × ℕ) → (ℕ × ℕ × ℕ) → Bool)
    (comps : List (List (ℕ × ℕ × ℕ))) (p : ℕ × ℕ × ℕ) :
    (ccStep adj comps p).flatten.Perm (p :: comps.flatten) := by
  unfold ccStep
  simp only [List.flatten_cons, List.cons_append]
  refine List.Perm.cons p ?_
  rw [← List.flatten_append]
  exact List.Perm.flatten (List.filter_append_perm _ comps)

/-- Helper: connected-component labeling partitions the foreground —
the concatenation of all components is a permutation of the input
voxel list. -/
theorem ccLabel_flatten_perm (adj : (ℕ × ℕ × ℕ) → (ℕ × ℕ × ℕ) → Bool)
    (pts : List (ℕ × ℕ × ℕ)) :
    (ccLabel adj pts).flatten.Perm pts := by
  suffices h : ∀ comps : List (List (ℕ × ℕ × ℕ)),
      (pts.foldl (ccStep adj) comps).flatten.Perm (pts ++ comps.flatten) by
    simpa [ccLabel] using h []
  induction pts with
  | nil =>
    intro comps
    simp
  | cons p t ih =>
    intro comps
    simp only [List.foldl_cons]
    refine (ih (ccStep adj comps p)).trans ?_
    exact (List.Perm.append_left t (ccStep_flatten_perm adj comps p)).trans
      List.perm_middle

/-- Helper: the per-component volumes of `component_volumes` sum to the
foreground voxel count times the voxel volume, for any connectivity. -/
theorem componentVolumes_total_sum (mask : Image) (lv : Option ℕ) (conn : ℕ) :
    ((componentVolumes mask lv conn).map fun c => c.volume_mm3).sum
      = ((foregroundList mask lv).length : ℚ)
        * (mask.spacing.1 * mask.spacing.2.1 * mask.spacing.2.2) := by
  by_cases hfg : (foregroundList mask lv).isEmpty = true
  · have hnil : foregroundList mask lv = [] := by
      simpa using hfg
    simp [componentVolumes, hfg, hnil]
  · simp only [componentVolumes, if_neg hfg]
    set fg := foregroundList mask lv with hfgdef
    set adj := if conn = 26 then adjacentFull else adjacentFace with hadj
    set comps := ccLabel adj fg with hcomps
    set vv := mask.spacing.1 * mask.spacing.2.1 * mask.spacing.2.2 with hvv
    rw [List.map_map]
    have key : List.map ((fun c => c.volume_mm3) ∘ fun ci =>
          ({ label_id := ci.2 + 1, voxel_count := ci.1.length,
             volume_mm3 := (ci.1.length : ℚ) * vv,
             volume_ml := (ci.1.length : ℚ) * vv / 1000 } : ComponentVolume))
          (comps.zip (List.range comps.length))
        = List.map (fun c : List (ℕ × ℕ × ℕ) => (c.length : ℚ) * vv) comps := by
      conv_rhs => rw [← List.map_fst_zip comps (List.range comps.length)
        (by rw [List.length_range])]
      rw [List.map_map]
      rfl
    rw [key, List.sum_map_mul_right]
    have hcast : (List.map (fun c : List (ℕ × ℕ × ℕ) => ((c.length : ℚ))) comps).sum
        = (((List.map List.length comps).sum : ℕ) : ℚ) := by
      rw [Nat.cast_list_sum, List.map_map]
      rfl
    rw [hcast, ← List.length_flatten, (ccLabel_flatten_perm adj fg).length_eq]

/-- C2: every component reported by `component_volumes` has
`volume_mm3 = voxel_count * (sx*sy*sz)` and `volume_ml = volume_mm3 /
1000`; `tumor_volume_summary` returns exactly that component list with
totals equal to the sum of the per-component volumes (so at unit
spacing the total is exactly the foreground voxel count in mm^3 and
that count over 1000 in mL); and a mask with no matching voxel yields
the empty component list and zero totals, without error. -/
theorem componentVolumes_arithmetic :
    (∀ (mask : Image) (lv : Option ℕ) (conn : ℕ) (c : ComponentVolume),
        c ∈ componentVolumes mask lv conn →
        c.volume_mm3 = (c.voxel_count : ℚ)
            * (mask.spacing.1 * mask.spacing.2.1 * mask.spacing.2.2)
          ∧ c.volume_ml = c.volume_mm3 / 1000)
    ∧ (∀ (mask : Image) (lv : Option ℕ) (conn : ℕ),
        (tumorVolumeSummary mask lv conn).1 = componentVolumes mask lv conn
          ∧ (tumorVolumeSummary mask lv conn).2.1
              = ((componentVolumes mask lv conn).map fun c => c.volume_mm3).sum
          ∧ (tumorVolumeSummary mask lv conn).2.2
              = (tumorVolumeSummary mask lv conn).2.1 / 1000)
    ∧ (∀ (mask : Image) (lv : Option ℕ) (conn : ℕ),
        mask.spacing = (1, 1, 1) →
        (tumorVolumeSummary mask lv conn).2.1
            = ((foregroundList mask lv).length : ℚ)
          ∧ (tumorVolumeSummary mask lv conn).2.2
            = ((foregroundList mask lv).length : ℚ) / 1000)
    ∧ ∀ (mask : Image) (lv : Option ℕ) (conn : ℕ),
        foregroundList mask lv = [] →
        componentVolumes mask lv conn = []
          ∧ tumorVolumeSummary mask lv conn = ([], 0, 0) := by
  have hsum : ∀ (mask : Image) (lv : Option ℕ) (conn : ℕ),
      (tumorVolumeSummary mask lv conn).2.1
        = ((foregroundList mask lv).length : ℚ)
          * (mask.spacing.1 * mask.spacing.2.1 * mask.spacing.2.2) := by
    intro mask lv conn
    exact componentVolumes_total_sum mask lv conn
  refine ⟨?_, ?_, ?_, ?_⟩
  · intro mask lv conn c hc
    by_cases hfg : (foregroundList mask lv).isEmpty = true
    · simp [componentVolumes, hfg] at hc
    · simp only [componentVolumes, if_neg hfg] at hc
      obtain ⟨ci, _, hcc⟩ := List.mem_map.mp hc
      subst hcc
      exact ⟨rfl, rfl⟩
  · intro mask lv conn
    exact ⟨rfl, rfl, rfl⟩
  · intro mask lv conn hsp
    constructor
    · rw [hsum mask lv conn, hsp]
      norm_num
    · show (tumorVolumeSummary mask lv conn).2.1 / 1000 = _
      rw [hsum mask lv conn, hsp]
      norm_num
  · intro mask lv conn hnil
    have hempty : (foregroundList mask lv).isEmpty = true := by
      simp [hnil]
    constructor
    · simp [componentVolumes, hempty]
    · simp [tumorVolumeSummary, componentVolumes, hempty]

/-- The single 26-connected component of `cornerImg` as
`component_volumes` constructs it: 2 voxels at unit spacing. -/
def cornerComp : ComponentVolume :=
  { label_id := 1, voxel_count := 2,
    volume_mm3 := ((2 : ℕ) : ℚ)
      * (cornerImg.spacing.1 * cornerImg.spacing.2.1 * cornerImg.spacing.2.2),
    volume_ml := ((2 : ℕ) : ℚ)
      * (cornerImg.spacing.1 * cornerImg.spacing.2.1 * cornerImg.spacing.2.2)
      / 1000 }

/-- Witness for C2 at the corner-pair image (two foreground voxels,
unit spacing: one 26-connected component of 2 voxels) and at an absent
label (label 5 nowhere in the image: empty list, zero totals). -/
theorem componentVolumes_arithmetic_witness :
    (cornerComp.volume_mm3 = (cornerComp.voxel_count : ℚ)
        * (cornerImg.spacing.1 * cornerImg.spacing.2.1 * cornerImg.spacing.2.2)
      ∧ cornerComp.volume_ml = cornerComp.volume_mm3 / 1000)
    ∧ ((tumorVolumeSummary cornerImg none 26).2.1
          = ((foregroundList cornerImg none).length : ℚ)
      ∧ (tumorVolumeSummary cornerImg none 26).2.2
          = ((foregroundList cornerImg none).length : ℚ) / 1000)
    ∧ componentVolumes imgUnit (some 5) 26 = []
    ∧ tumorVolumeSummary imgUnit (some 5) 26 = ([], 0, 0) := by
  have hred : componentVolumes cornerImg none 26
      = List.map (fun ci : List (ℕ × ℕ × ℕ) × ℕ =>
          ({ label_id := ci.2 + 1, voxel_count := ci.1.length,
             volume_mm3 := (ci.1.length : ℚ)
               * (cornerImg.spacing.1 * cornerImg.spacing.2.1 * cornerImg.spacing.2.2),
             volume_ml := (ci.1.length : ℚ)
               * (cornerImg.spacing.1 * cornerImg.spacing.2.1 * cornerImg.spacing.2.2)
               / 1000 } : ComponentVolume))
        [([(1, 1, 1), (0, 0, 0)], 0)] := rfl
  have hmem : cornerComp ∈ componentVolumes cornerImg none 26 := by
    rw [hred]
    exact List.mem_map.mpr ⟨([(1, 1, 1), (0, 0, 0)], 0), List.mem_singleton.mpr rfl, rfl⟩
  exact ⟨componentVolumes_arithmetic.1 cornerImg none 26 cornerComp hmem,
         componentVolumes_arithmetic.2.2.1 cornerImg none 26 rfl,
         (componentVolumes_arithmetic.2.2.2 imgUnit (some 5) 26 (by decide)).1,
         (componentVolumes_arithmetic.2.2.2 imgUnit (some 5) 26 (by decide)).2⟩

/-- Helper: `_canonicalize_image` always yields identity direction and
zero origin. -/
theorem canonicalizeImage_canonical (img : Image) :
    Canonical (canonicalizeImage img) := ⟨rfl, rfl⟩

/-- Helper: any mask successfully delivered by `_read_mask_like` is
canonicalized. -/
theorem readMaskLike_canonical (readImage : String → Except PipeError Image)
    (ref : Image) (p : String) (m : Image)
    (h : readMaskLike readImage ref p = .ok m) : Canonical m := by
  rcases hr : readImage p with e | raw
  · simp only [readMaskLike, hr] at h
    exact Except.noConfusion h
  · simp only [readMaskLike, hr] at h
    obtain rfl := Except.ok.inj h
    exact canonicalizeImage_canonical _

/-- C1: with no liver mask path, `run_pipeline` fails with the
missing-liver-mask error and produces no result; when a liver mask path
is available (and its read succeeds) while the vessel/tumor and manual
mask paths are absent, the run completes and returns a result with
`tumor_metrics = None` — absence of the optional paths never aborts. -/
theorem runPipeline_liver_mandatory :
    (∀ (mc : McBackend) (readImage : ℕ → String → Except PipeError Image)
        (loaded : Image) (tp mp : Option String),
        runPipeline mc readImage loaded none tp mp = .error .missingLiverMask)
    ∧ ∀ (mc : McBackend) (readImage : ℕ → String → Except PipeError Image)
        (loaded : Image) (lp : String) (m : Image),
        readMaskLike (readImage 0) (canonicalizeImage loaded) lp = .ok m →
        ∃ r : PipelineResult,
          runPipeline mc readImage loaded (some lp) none none = .ok r
            ∧ r.tumor_metrics = none ∧ r.mask_img = m := by
  constructor
  · intro mc readImage loaded tp mp
    rfl
  · intro mc readImage loaded lp m hread
    rcases hrun : runPipeline mc readImage loaded (some lp) none none with er | r
    · simp only [runPipeline, hread, addLabeledSurfaces] at hrun
      exact Except.noConfusion hrun
    · simp only [runPipeline, hread, addLabeledSurfaces] at hrun
      obtain rfl := Except.ok.inj hrun
      exact ⟨_, rfl, rfl, rfl⟩

/-- Witness for C1 at the 1-voxel fixtures. -/
theorem runPipeline_liver_mandatory_witness :
    runPipeline mcConst readAllTwo imgUnit none none none = .error .missingLiverMask
    ∧ ∃ r : PipelineResult,
        runPipeline mcConst readAllTwo imgUnit (some "liver.nii") none none = .ok r
          ∧ r.tumor_metrics = none ∧ r.mask_img = canonicalizeImage imgTwo :=
  ⟨runPipeline_liver_mandatory.1 mcConst readAllTwo imgUnit none none,
   runPipeline_liver_mandatory.2 mcConst readAllTwo imgUnit "liver.nii"
     (canonicalizeImage imgTwo) rfl⟩

/-- C7: on a mask whose only labels are 0 and 2, the multi-label
builder with map `{1 ↦ (n1, c1), 2 ↦ (n2, c2)}` adds exactly one
surface — keyed `n2`, carrying color `c2` — raises no error for the
absent label 1, and returns normally (provided marching cubes yields
nonempty geometry for the label-2 selection). -/
theorem addLabeledSurfaces_label_round_trip
    (mc : McBackend) (readImage : String → Except PipeError Image)
    (ref : Image) (p : String) (m : Image) (n1 n2 : String) (c1 c2 : RGBA)
    (sdn : Bool)
    (hread : readMaskLike readImage ref p = .ok m)
    (hno1 : ∀ c ∈ coords (imageToArr m), (imageToArr m).val c.1 c.2.1 c.2.2 ≠ 1)
    (h2 : ∃ c ∈ coords (imageToArr m), (imageToArr m).val c.1 c.2.1 c.2.2 = 2)
    (hmc1 : (mc (selectionOf (selectionOf (imageToArr m) (some 2)) none)
        m.spacing m.origin).1 ≠ [])
    (hmc2 : (mc (selectionOf (selectionOf (imageToArr m) (some 2)) none)
        m.spacing m.origin).2 ≠ []) :
    ∃ s : Surface,
      addLabeledSurfaces mc readImage ref (some p) [(1, n1, c1), (2, n2, c2)] [] sdn
        = .ok [(n2, s)] ∧ s.color = c2 := by
  obtain ⟨c, hc, hcv⟩ := h2
  have hany1 : anyVoxel (selectionOf (imageToArr m) (some 1)) = false := by
    simp only [anyVoxel, List.any_eq_false]
    intro d hd
    have hd1 := hno1 d hd
    simp [selectionOf, hd1]
  have hany2 : anyVoxel (selectionOf (imageToArr m) (some 2)) = true := by
    simp only [anyVoxel, List.any_eq_true]
    exact ⟨c, hc, by simp [selectionOf, hcv]⟩
  have hany2n : anyVoxel (selectionOf (selectionOf (imageToArr m) (some 2)) none) = true := by
    simp only [anyVoxel, List.any_eq_true]
    exact ⟨c, hc, by simp [selectionOf, hcv]⟩
  have hb1 : buildSurface mc m n1 c1 (some 1) = none := by
    simp [buildSurface, hany1]
  have hms : maskToSurface mc (selectionOf (imageToArr m) (some 2)) m.spacing m.origin none
      = .ok ⟨(mc (selectionOf (selectionOf (imageToArr m) (some 2)) none) m.spacing m.origin).1,
             (mc (selectionOf (selectionOf (imageToArr m) (some 2)) none) m.spacing m.origin).2⟩ := by
    simp only [maskToSurface, hany2n, if_true]
    rw [if_neg (by simpa [List.length_eq_zero] using hmc1),
        if_neg (by simpa [List.length_eq_zero] using hmc2)]
  have hb2 : buildSurface mc m n2 c2 (some 2)
      = some ⟨(mc (selectionOf (selectionOf (imageToArr m) (some 2)) none) m.spacing m.origin).1,
              (mc (selectionOf (selectionOf (imageToArr m) (some 2)) none) m.spacing m.origin).2,
              c2, n2⟩ := by
    simp only [buildSurface, hany2, if_true, hms]
    rw [if_neg (by simp [List.length_eq_zero, hmc1, hmc2])]
  let sBase : Surface :=
    ⟨(mc (selectionOf (selectionOf (imageToArr m) (some 2)) none) m.spacing m.origin).1,
     (mc (selectionOf (selectionOf (imageToArr m) (some 2)) none) m.spacing m.origin).2,
     c2, n2⟩
  refine ⟨if sdn then { sBase with display_name := pyTitle n2 } else sBase, ?_, ?_⟩
  · simp only [addLabeledSurfaces, hread, List.foldl_cons, List.foldl_nil, hb1, hb2]
    simp [upsert]
  · cases sdn <;> rfl

/-- Witness for C7: a 1-voxel label-2 mask with the Task08-style label
map and the constant marching-cubes backend. -/
theorem addLabeledSurfaces_label_round_trip_witness :
    ∃ s : Surface,
      addLabeledSurfaces mcConst (fun _ => .ok imgTwo) imgUnit (some "task.nii")
          [(1, "hepatic_vessels_OLD", (0, 0, 1, 1)), (2, "liver_tumors", (0, 1, 0, 1))]
          [] true
        = .ok [("liver_tumors", s)] ∧ s.color = (0, 1, 0, 1) :=
  addLabeledSurfaces_label_round_trip mcConst (fun _ => .ok imgTwo) imgUnit
    "task.nii" (canonicalizeImage imgTwo) "hepatic_vessels_OLD" "liver_tumors"
    (0, 0, 1, 1) (0, 1, 0, 1) true rfl (by decide) (by decide) (by decide) (by decide)

/-- C8: whenever the vessel/tumor mask path is given, every successful
run's `tumor_metrics` equals the label-2, 26-connectivity summary of
the re-read task mask (or `None` when that read fails), for every
marching-cubes backend — volumetrics is independent of surface
extraction; and when the volumetrics re-read fails while the other
reads succeed, the pipeline still runs to completion, returning a
result with `tumor_metrics = None`. -/
theorem runPipeline_volumetrics_decoupled :
    (∀ (mc : McBackend) (readImage : ℕ → String → Except PipeError Image)
        (loaded : Image) (lp tp : String) (mp : Option String) (r : PipelineResult),
        runPipeline mc readImage loaded (some lp) (some tp) mp = .ok r →
        r.tumor_metrics
          = match readMaskLike (readImage 2) (canonicalizeImage loaded) tp with
            | .error _ => none
            | .ok tm => some (metricsOf tm))
    ∧ ∀ (mc : McBackend) (readImage : ℕ → String → Except PipeError Image)
        (loaded : Image) (lp tp mp : String) (m0 m1 m3 : Image) (e : PipeError),
        readMaskLike (readImage 0) (canonicalizeImage loaded) lp = .ok m0 →
        readMaskLike (readImage 1) (canonicalizeImage loaded) tp = .ok m1 →
        readMaskLike (readImage 2) (canonicalizeImage loaded) tp = .error e →
        readMaskLike (readImage 3) (canonicalizeImage loaded) mp = .ok m3 →
        ∃ r : PipelineResult,
          runPipeline mc readImage loaded (some lp) (some tp) (some mp) = .ok r
            ∧ r.tumor_metrics = none := by
  constructor
  · intro mc readImage loaded lp tp mp r hok
    rcases h2 : readMaskLike (readImage 2) (canonicalizeImage loaded) tp with e2 | tm
    all_goals
      simp only [runPipeline, h2] at hok
      simp only [h2]
      repeat' first
        | exact Except.noConfusion hok
        | split at hok
      all_goals
        obtain rfl := Except.ok.inj hok
        rfl
  · intro mc readImage loaded lp tp mp m0 m1 m3 e h0 h1 h2 h3
    rcases hrun : runPipeline mc readImage loaded (some lp) (some tp) (some mp) with er | r
    · simp only [runPipeline, h0, h2, addLabeledSurfaces, h1, h3] at hrun
      exact Except.noConfusion hrun
    · simp only [runPipeline, h0, h2, addLabeledSurfaces, h1, h3] at hrun
      obtain rfl := Except.ok.inj hrun
      exact ⟨_, rfl, rfl⟩

/-- Witness for C8: an all-background task mask yields zero-burden
metrics computed regardless of surface extraction; a failing
volumetrics re-read yields `tumor_metrics = None` with the run still
completing. -/
theorem runPipeline_volumetrics_decoupled_witness :
    (pipeResZ.tumor_metrics
        = match readMaskLike (readAllZero 2) (canonicalizeImage imgUnit) "t" with
          | .error _ => none
          | .ok tm => some (metricsOf tm))
    ∧ ∃ r : PipelineResult,
        runPipeline mcConst readFailVol imgUnit (some "l") (some "t") (some "m") = .ok r
          ∧ r.tumor_metrics = none :=
  ⟨runPipeline_volumetrics_decoupled.1 mcConst readAllZero imgUnit "l" "t" none
     pipeResZ rfl,
   runPipeline_volumetrics_decoupled.2 mcConst readFailVol imgUnit "l" "t" "m"
     (canonicalizeImage imgTwo) (canonicalizeImage imgTwo) (canonicalizeImage imgTwo)
     (.ioError "boom") rfl rfl rfl rfl⟩

/-- C9: `_canonicalize_image` forces identity direction and zero
origin; every mask `_read_mask_like` delivers is canonicalized; and
every successful pipeline run returns a canonicalized reference volume
and a canonicalized liver mask volume. -/
theorem pipeline_canonicalization :
    (∀ img : Image, Canonical (canonicalizeImage img))
    ∧ (∀ (readImage : String → Except PipeError Image) (ref : Image) (p : String)
        (m : Image), readMaskLike readImage ref p = .ok m → Canonical m)
    ∧ ∀ (mc : McBackend) (readImage : ℕ → String → Except PipeError Image)
        (loaded : Image) (lp tp mp : Option String) (r : PipelineResult),
        runPipeline mc readImage loaded lp tp mp = .ok r →
        Canonical r.img ∧ Canonical r.mask_img := by
  refine ⟨canonicalizeImage_canonical, readMaskLike_canonical, ?_⟩
  intro mc readImage loaded lp tp mp r hok
  cases lp with
  | none =>
    simp only [runPipeline] at hok
    exact Except.noConfusion hok
  | some lp =>
    simp only [runPipeline] at hok
    split at hok
    · exact Except.noConfusion hok
    · rename_i m0 h0
      repeat' first
        | exact Except.noConfusion hok
        | split at hok
      all_goals
        obtain rfl := Except.ok.inj hok
        exact ⟨canonicalizeImage_canonical loaded, readMaskLike_canonical _ _ _ _ h0⟩

/-- Witness for C9 at the 1-voxel fixtures. -/
theorem pipeline_canonicalization_witness :
    Canonical (canonicalizeImage imgUnit)
    ∧ Canonical (canonicalizeImage imgTwo)
    ∧ Canonical pipeResW.img ∧ Canonical pipeResW.mask_img :=
  ⟨pipeline_canonicalization.1 imgUnit,
   pipeline_canonicalization.2.1 (fun _ => .ok imgTwo) imgUnit "p"
     (canonicalizeImage imgTwo) rfl,
   (pipeline_canonicalization.2.2 mcConst readAllTwo imgUnit (some "l") none none
     pipeResW rfl).1,
   (pipeline_canonicalization.2.2 mcConst readAllTwo imgUnit (some "l") none none
     pipeResW rfl).2⟩

end HpbViz
